import Mathlib

/-!
Verification development for the lfp_reader package (lfp_picture.py).

The Python module LfpPictureFile is shallowly embedded here:

* JSON metadata trees are the inductive type Json; Python dict/list
  subscription, membership tests and truthiness are modelled by getKey,
  getIndex, keyMem and truthy, raising the corresponding Python
  exception kind (Err) on failure.
* Byte strings are List Nat; chunks are the Chunk structure with a data
  field, the chunk table is an association list keyed by reference
  strings, as in lfp_file.
* The stateful process method is modelled as a function from the
  metadata tree and a context to the resulting reader state paired
  with an optional raised error; mutations performed before an
  exception are retained, exactly as in Python.
* Fallible operations return Except Err.
* Numbers held by the light-field structures are modelled as rationals;
  32-bit floats of the depth lookup table are represented by their bit
  pattern (a Nat below 2^32), since only the byte layout of the table is
  at stake in the construction.
-/

set_option maxHeartbeats 1000000

namespace LfpPicture

/-- Kinds of Python exceptions (and the library error) raised by the code
under study.  keyError models KeyError, lfpError models LfpPictureError,
structError models struct.error, and so on. -/
inductive Err where
  | keyError (msg : String)
  | indexError
  | typeError
  | nameError (v : String)
  | attributeError
  | valueError
  | structError
  | runtimeError (msg : String)
  | lfpError (msg : String)
  deriving DecidableEq, Repr

/-- JSON-shaped metadata values, as produced by parsing the metadata chunk. -/
inductive Json where
  | null
  | bool (b : Bool)
  | num (q : ℚ)
  | str (s : String)
  | arr (l : List Json)
  | obj (kvs : List (String × Json))

/-- Lookup of a key in the entry list of a JSON object (Python dict lookup,
first binding wins; real dicts have unique keys). -/
def objGet (kvs : List (String × Json)) (k : String) : Option Json :=
  (kvs.find? (fun p => p.1 == k)).map (fun p => p.2)

/-- Python subscription value[k] for a string key: KeyError when the key is
absent from a dict, TypeError when the value is not a dict (subscripting a
list or scalar with a string raises TypeError). -/
def getKey : Json → String → Except Err Json
  | .obj kvs, k =>
      match objGet kvs k with
      | some v => .ok v
      | none => .error (.keyError k)
  | _, _ => .error .typeError

/-- Python subscription value[i] for a non-negative integer index:
IndexError past the end of a list, KeyError on a dict without that key
(modelled with the printed index as message), TypeError otherwise. -/
def getIndex : Json → Nat → Except Err Json
  | .arr l, i =>
      match l.get? i with
      | some v => .ok v
      | none => .error .indexError
  | .obj _, i => .error (.keyError (toString i))
  | _, _ => .error .typeError

/-- Python membership test (k in value) for a string k: key membership on a
dict, element membership on a list, substring test on a string, TypeError on
scalars. -/
def keyMem (k : String) : Json → Except Err Bool
  | .obj kvs => .ok (kvs.any (fun p => p.1 == k))
  | .arr l => .ok (l.any (fun v => match v with | .str s => s == k | _ => false))
  | .str s => .ok (decide (List.IsInfix k.data s.data))
  | _ => .error .typeError

/-- Python truthiness of a JSON value. -/
def truthy : Json → Bool
  | .null => false
  | .bool b => b
  | .num q => q != 0
  | .str s => s != ""
  | .arr l => !l.isEmpty
  | .obj kvs => !kvs.isEmpty

/-- Iteration over a JSON value as a Python for-loop would.  Only list
iteration is modelled (iterating a dict yields its keys and a string its
characters, neither is ever reached by the processed picture walk). -/
def asList : Json → Except Err (List Json)
  | .arr l => .ok l
  | _ => .error .typeError

/-- Conversion of a JSON value to a non-negative integer, as required by
xrange; a non-integer argument raises TypeError. -/
def asNat : Json → Except Err Nat
  | .num q => if q.den = 1 ∧ 0 ≤ q.num then .ok q.num.toNat else .error .typeError
  | _ => .error .typeError

/-- Conversion of a JSON value to a number for arithmetic; a non-numeric
argument raises TypeError. -/
def asRat : Json → Except Err ℚ
  | .num q => .ok q
  | _ => .error .typeError

/-- Immutable chunk of the container: a byte buffer, as in lfp_file. -/
structure Chunk where
  data : List Nat
  deriving DecidableEq, Repr

/-- The chunk table of the container: reference key to chunk. -/
abbrev Chunks := List (String × Chunk)

/-- Option-valued chunk-table lookup, used for membership tests. -/
def chunkLookupOpt (chunks : Chunks) (s : String) : Option Chunk :=
  (chunks.find? (fun p => p.1 == s)).map (fun p => p.2)

/-- Python membership test ref in self.chunks.  A non-string hashable key is
simply absent; an unhashable key (list or dict) raises TypeError. -/
def memChunks (chunks : Chunks) : Json → Except Err Bool
  | .str s => .ok (chunkLookupOpt chunks s).isSome
  | .arr _ => .error .typeError
  | .obj _ => .error .typeError
  | _ => .ok false

/-- Python subscription self.chunks[ref]: KeyError when absent, TypeError on
an unhashable key. -/
def chunkLookup (chunks : Chunks) : Json → Except Err Chunk
  | .str s =>
      match chunkLookupOpt chunks s with
      | some c => .ok c
      | none => .error (.keyError s)
  | .arr _ => .error .typeError
  | .obj _ => .error .typeError
  | _ => .error (.keyError "")

/-- Python list subscription l[i] for a non-negative index. -/
def pyIndex {α : Type} (l : List α) (i : Nat) : Except Err α :=
  match l.get? i with
  | some a => .ok a
  | none => .error .indexError

/-- Python slice l[a:b] for non-negative bounds. -/
def pySlice (l : List Nat) (a b : Nat) : List Nat :=
  (l.drop a).take (b - a)

/-- Sequential effectful map over a list, as a Python list comprehension:
elements are produced in order and the first raised exception aborts the
whole comprehension. -/
def mapExcept {α β : Type} (f : α → Except Err β) : List α → Except Err (List β)
  | [] => .ok []
  | x :: xs => do
      let y ← f x
      let ys ← mapExcept f xs
      pure (y :: ys)

/-- Python min(iterable, key) given a first element b and the remaining
elements: the current best is replaced only when a strictly smaller key
appears, so the first element attaining the minimum wins. -/
def min_first {α : Type} (f : α → ℚ) (b : α) : List α → α
  | [] => b
  | y :: ys => if f y < f b then min_first f y ys else min_first f b ys

/-- Python max(iterable, key) given a first element b and the remaining
elements: replaced only on a strictly larger key, first maximum wins. -/
def max_first {α : Type} (f : α → ℚ) (b : α) : List α → α
  | [] => b
  | y :: ys => if f y > f b then max_first f y ys else max_first f b ys

/-!  Value-level light-field structures.  The claims about the query
operations quantify over populated stacks, whose numeric fields are
modelled as rationals (the decoded view of the stored values).  -/

/-- Raw frame: the three chunks named by the first frameArray entry. -/
structure Frame where
  metadata : Chunk
  image : Chunk
  private_metadata : Chunk
  deriving DecidableEq, Repr

/-- One refocus image of a populated refocus stack. -/
structure RefocusImageV where
  id : Nat
  lambda_ : ℚ
  width : ℚ
  height : ℚ
  representation : String
  chunk : Option Chunk
  data : Option (List Nat)
  deriving DecidableEq, Repr

/-- Depth lookup table of a populated refocus stack; the table is stored as
width columns, each a list of height rows, exactly as built by process. -/
structure DepthLutV where
  width : Nat
  height : Nat
  representation : String
  table : List (List ℚ)
  chunk : Chunk
  deriving DecidableEq, Repr

/-- Populated refocus stack; refocus_images models the id-keyed dict, whose
dense integer keys 0,1,... iterate in ascending order, as the position in
this list. -/
structure RefocusStackV where
  refocus_images : List RefocusImageV
  depth_lut : DepthLutV
  default_lambda : ℚ
  default_width : ℚ
  default_height : ℚ
  deriving DecidableEq, Repr

/-- A 2-D viewpoint coordinate. -/
structure CoordV where
  x : ℚ
  y : ℚ
  deriving DecidableEq, Repr

/-- One parallax image of a populated parallax stack. -/
structure ParallaxImageV where
  id : Nat
  coord : CoordV
  width : ℚ
  height : ℚ
  representation : String
  chunk : Option Chunk
  data : Option (List Nat)
  deriving DecidableEq, Repr

/-- Populated parallax stack. -/
structure ParallaxStackV where
  parallax_images : List ParallaxImageV
  default_width : ℚ
  default_height : ℚ
  viewpoint_width : ℚ
  viewpoint_height : ℚ
  deriving DecidableEq, Repr

/-- Accessor get_refocus_stack: fails with the descriptive missing-data
error (carrying the file path) when the stack is absent or empty. -/
def get_refocus_stack (fp : String) (rs : Option RefocusStackV) :
    Except Err RefocusStackV :=
  match rs with
  | none => .error (.lfpError (fp ++ ": Cannot find refocus data in LFP Picture file"))
  | some stk =>
      if stk.refocus_images.isEmpty then
        .error (.lfpError (fp ++ ": Cannot find refocus data in LFP Picture file"))
      else .ok stk

/-- Accessor get_parallax_stack, analogous. -/
def get_parallax_stack (fp : String) (ps : Option ParallaxStackV) :
    Except Err ParallaxStackV :=
  match ps with
  | none => .error (.lfpError (fp ++ ": Cannot find parallax data in LFP Picture file"))
  | some stk =>
      if stk.parallax_images.isEmpty then
        .error (.lfpError (fp ++ ": Cannot find parallax data in LFP Picture file"))
      else .ok stk

/-- Accessor get_frame: fails with the missing-data error carrying the file
path when no Frame was populated. -/
def get_frame (fp : String) (fr : Option Frame) : Except Err Frame :=
  match fr with
  | none => .error (.lfpError (fp ++ ": Not a valid/supported Raw LFP Picture file"))
  | some f => .ok f

/-- Method find_closest_refocus_image_by_lut_idx: clamp the floors of the
fractional indices into the table bounds, read the target lambda from the
depth table, and take the refocus image minimising the absolute lambda
difference, iterating the dense ids in ascending order with Python min
(first minimum wins). -/
def find_closest_refocus_image_by_lut_idx (fp : String)
    (rs : Option RefocusStackV) (ti tj : ℚ) : Except Err RefocusImageV := do
  let rstk ← get_refocus_stack fp rs
  let w := rstk.depth_lut.width
  let h := rstk.depth_lut.height
  let i : Nat := (max 0 (min ⌊ti⌋ ((w : ℤ) - 1))).toNat
  let j : Nat := (max 0 (min ⌊tj⌋ ((h : ℤ) - 1))).toNat
  let col ← pyIndex rstk.depth_lut.table i
  let target ← pyIndex col j
  match rstk.refocus_images with
  | [] => .error .valueError
  | x :: xs => .ok (min_first (fun img => |img.lambda_ - target|) x xs)

/-- The value of sys.maxint on the 64-bit CPython 2 builds this module runs
on, used by find_closest_parallax_image as the initial best distance. -/
def maxint : ℚ := 2 ^ 63 - 1

/-- The linear scan of find_closest_parallax_image: the running pair is the
best image so far (initially None) and its squared distance (initially
sys.maxint); an image replaces the best only on a strictly smaller
distance. -/
def parallax_scan (d : ParallaxImageV → ℚ) :
    Option ParallaxImageV × ℚ → List ParallaxImageV → Option ParallaxImageV × ℚ
  | acc, [] => acc
  | acc, y :: ys =>
      if d y < acc.2 then parallax_scan d (some y, d y) ys
      else parallax_scan d acc ys

/-- Method find_closest_parallax_image: map the fractional position to a
viewpoint coordinate and scan all parallax images (ascending ids) for the
smallest squared Euclidean distance; returns None when nothing beats the
sys.maxint sentinel. -/
def find_closest_parallax_image (fp : String) (ps : Option ParallaxStackV)
    (x_f y_f : ℚ) : Except Err (Option ParallaxImageV) := do
  let pstk ← get_parallax_stack fp ps
  let vx := (x_f - 1/2) * pstk.viewpoint_width
  let vy := (y_f - 1/2) * pstk.viewpoint_height
  let r := parallax_scan
    (fun pimg => (pimg.coord.x - vx) ^ 2 + (pimg.coord.y - vy) ^ 2)
    (none, maxint) pstk.parallax_images
  pure r.1

/-!  Depth lookup table construction (process, lines 172-186).  -/

/-- Bit pattern of a 32-bit value assembled from four bytes in the native
(little-endian) order of the supported platforms; the IEEE-754 float value
unpacked by struct.unpack("f") is determined by this pattern, and the table
claims only concern the byte layout, so the pattern stands for the float. -/
def float32_le (b0 b1 b2 b3 : Nat) : Nat :=
  b0 + 256 * b1 + 65536 * b2 + 16777216 * b3

/-- Model of struct.unpack("f", s)[0]: requires exactly four bytes
(struct.error otherwise) and yields the native-order 32-bit pattern. -/
def unpack_f : List Nat → Except Err Nat
  | [b0, b1, b2, b3] => .ok (float32_le b0 b1 b2 b3)
  | _ => .error .structError

/-- The nested list comprehension building the depth table in process:
outer index i over the width, inner index j over the height, each cell
unpacked from the byte slice at offset 4 * (j * width + i). -/
def build_depth_table (data : List Nat) (w h : Nat) :
    Except Err (List (List Nat)) :=
  mapExcept (fun i => mapExcept (fun j =>
      unpack_f (pySlice data ((j * w + i) * 4) ((j * w + i + 1) * 4)))
    (List.range h)) (List.range w)

/-!  Text rendering of the depth table (get_depth_lut_txt).  -/

/-- Left-pad a digit string with zeros to k characters. -/
def padZeros (k : Nat) (s : String) : String :=
  String.mk (List.replicate (k - s.length) '0') ++ s

/-- Model of the Python fixed-point conversion "%f" applied to a table
value: sign, integer part, a dot and six decimal digits (rounded to
nearest). -/
def fmtFixed6 (q : ℚ) : String :=
  let n : Nat := (round (|q| * 1000000) : ℤ).toNat
  let sign := if q < 0 then "-" else ""
  sign ++ toString (n / 1000000) ++ "." ++ padZeros 6 (toString (n % 1000000))

/-- Model of the Python conversion "%9f": the fixed-point rendering
right-justified with spaces to a minimum field width of nine. -/
def fmt_9f (q : ℚ) : String :=
  let s := fmtFixed6 q
  String.mk (List.replicate (9 - s.length) ' ') ++ s

/-- One line of get_depth_lut_txt for outer index i: the inner loop over j
appends the formatted value of table[j][i] and a space per cell; list
indexing past the end raises IndexError, as in Python. -/
def lut_line (table : List (List ℚ)) (h : Nat) (i : Nat) :
    Except Err String := do
  let cells ← mapExcept (fun j => do
      let col ← pyIndex table j
      let v ← pyIndex col i
      pure (fmt_9f v ++ " ")) (List.range h)
  pure (String.join cells)

/-- Method get_depth_lut_txt: reads self._refocus_stack.depth_lut directly
(AttributeError when the stack is absent) and accumulates, for i over the
width, the line of values table[j][i] for j over the height followed by
CR-LF. -/
def get_depth_lut_txt (rs : Option RefocusStackV) : Except Err String :=
  match rs with
  | none => .error .attributeError
  | some stk => do
      let lut := stk.depth_lut
      let lines ← mapExcept (fun i => do
          let s ← lut_line lut.table lut.height i
          pure (s ++ "\r\n")) (List.range lut.width)
      pure (String.join lines)

/-!  The process method.  Its JSON walk stores the metadata values it finds
without interpretation, so the structures it builds keep Json fields; the
depth table cells are the unpacked 32-bit patterns.  -/

/-- Refocus image as stored by process (raw metadata values). -/
structure RefocusImageJ where
  id : Nat
  lambda_ : Json
  width : Json
  height : Json
  representation : Json
  chunk : Option Chunk
  data : Option (List Nat)

/-- Depth lookup table as stored by process. -/
structure DepthLutJ where
  width : Nat
  height : Nat
  representation : Json
  table : List (List Nat)
  chunk : Chunk

/-- Refocus stack as stored by process. -/
structure RefocusStackJ where
  refocus_images : List RefocusImageJ
  depth_lut : DepthLutJ
  default_lambda : Json
  default_width : Json
  default_height : Json

/-- Parallax image as stored by process.  The coordinate is unpacked by
Coord(**pimg['coord']); its values are modelled as numbers since the code
goes on to order and double them (non-numeric coordinates, which CPython 2
would order by its cross-type rules, are modelled as TypeError and never
exercised by the claims). -/
structure ParallaxImageJ where
  id : Nat
  coord : CoordV
  width : Json
  height : Json
  representation : Json
  chunk : Option Chunk
  data : Option (List Nat)

/-- Parallax stack as stored by process. -/
structure ParallaxStackJ where
  parallax_images : List ParallaxImageJ
  default_width : Json
  default_height : Json
  viewpoint_width : ℚ
  viewpoint_height : ℚ

/-- Context of a process call: the chunk table of the container, whether the
GStreamer splitter module is importable, and the splitter itself (an
external capability mapping the combined H.264 stream to the per-image
buffers). -/
structure Ctx where
  chunks : Chunks
  gst_available : Bool
  split : List Nat → List (List Nat)

/-- Model of _check_gst_h264_splitter_module. -/
def checkGst (ctx : Ctx) : Except Err Unit :=
  if ctx.gst_available then .ok ()
  else .error (.runtimeError "Cannot find GStreamer Python library")

/-- Python equality of a JSON value against a string literal (False for any
non-string value). -/
def isStr : Json → String → Bool
  | .str s, t => s == t
  | _, _ => false

/-- Model of Coord(**d): requires a dict with exactly the keys x and y
(TypeError otherwise, as keyword unpacking would raise). -/
def coordOf : Json → Except Err CoordV
  | .obj kvs =>
      if kvs.all (fun p => p.1 == "x" || p.1 == "y") &&
         kvs.any (fun p => p.1 == "x") && kvs.any (fun p => p.1 == "y") then
        match objGet kvs "x", objGet kvs "y" with
        | some xv, some yv => do
            let x ← asRat xv
            let y ← asRat yv
            pure ⟨x, y⟩
        | _, _ => .error .typeError
      else .error .typeError
  | _ => .error .typeError

/-- One entry of the JPEG-based refocus imageArray comprehension
(process, lines 137-145). -/
def refocusImageOfArrayEntry (ctx : Ctx) : Nat × Json →
    Except Err RefocusImageJ := fun (id, rimg) => do
  let lam ← getKey rimg "lambda"
  let w ← getKey rimg "width"
  let h ← getKey rimg "height"
  let rep ← getKey rimg "representation"
  let iref ← getKey rimg "imageRef"
  let c ← chunkLookup ctx.chunks iref
  pure ⟨id, lam, w, h, rep, some c, none⟩

/-- One entry of the H264-based refocus metadataArray comprehension
(process, lines 156-164). -/
def refocusImageOfBlockEntry (images_data : List (List Nat)) : Nat × Json →
    Except Err RefocusImageJ := fun (id, rimg) => do
  let lam ← getKey rimg "lambda"
  let w ← getKey rimg "width"
  let h ← getKey rimg "height"
  let d ← pyIndex images_data id
  pure ⟨id, lam, w, h, Json.str "jpeg", none, some d⟩

/-- The refocus-image set of a refocusStack acceleration entry: the
imageArray shape, else the blockOfImages shape restricted to the h264
representation, else the internal KeyError carrying the message
Unsupported Processed LFP Picture file (process, lines 135-170). -/
def buildRefocusImages (ctx : Ctx) (vc : Json) :
    Except Err (List RefocusImageJ) := do
  let hasIA ← keyMem "imageArray" vc
  if hasIA then do
    let ia ← getKey vc "imageArray"
    let entries ← asList ia
    mapExcept (refocusImageOfArrayEntry ctx) entries.enum
  else do
    let hasBOI ← keyMem "blockOfImages" vc
    if hasBOI then do
      let boi ← getKey vc "blockOfImages"
      let rep ← getKey boi "representation"
      if isStr rep "h264" then do
        checkGst ctx
        let bref ← getKey boi "blockOfImagesRef"
        let bchunk ← chunkLookup ctx.chunks bref
        let images_data := ctx.split bchunk.data
        let marr ← getKey boi "metadataArray"
        let entries ← asList marr
        mapExcept (refocusImageOfBlockEntry images_data) entries.enum
      else .error (.keyError "Unsupported Processed LFP Picture file")
    else .error (.keyError "Unsupported Processed LFP Picture file")

/-- The depth lookup table of a refocusStack acceleration entry (process,
lines 172-186). -/
def buildDepthLut (ctx : Ctx) (vc : Json) : Except Err DepthLutJ := do
  let dl ← getKey vc "depthLut"
  let w ← getKey dl "width" >>= asNat
  let h ← getKey dl "height" >>= asNat
  let iref ← getKey dl "imageRef"
  let dchunk ← chunkLookup ctx.chunks iref
  let table ← build_depth_table dchunk.data w h
  let rep ← getKey dl "representation"
  pure ⟨w, h, rep, table, dchunk⟩

/-- A whole refocusStack acceleration entry (process, lines 134-194),
assigned to self._refocus_stack on success. -/
def processRefocusEntry (ctx : Ctx) (vc : Json) : Except Err RefocusStackJ := do
  let imgs ← buildRefocusImages ctx vc
  let lut ← buildDepthLut ctx vc
  let dd ← getKey vc "displayParameters" >>= fun a =>
    getKey a "displayDimensions" >>= fun b => getKey b "value"
  let dlam ← getKey vc "defaultLambda"
  let dw ← getKey dd "width"
  let dh ← getKey dd "height"
  pure ⟨imgs, lut, dlam, dw, dh⟩

/-- One entry of the parallax metadataArray comprehension (process,
lines 206-214). -/
def parallaxImageOfBlockEntry (images_data : List (List Nat)) : Nat × Json →
    Except Err ParallaxImageJ := fun (id, pimg) => do
  let cj ← getKey pimg "coord"
  let co ← coordOf cj
  let w ← getKey pimg "width"
  let h ← getKey pimg "height"
  let d ← pyIndex images_data id
  pure ⟨id, co, w, h, Json.str "jpeg", none, some d⟩

/-- The parallax-image set of an edofParallax acceleration entry (process,
lines 198-214): built only when the blockOfImages representation is h264;
for any other representation the local variable parallax_images is read
unbound afterwards, which raises NameError unless an earlier entry of the
same call already bound it (prior). -/
def buildParallaxImages (ctx : Ctx) (vc : Json)
    (prior : Option (List ParallaxImageJ)) :
    Except Err (List ParallaxImageJ) := do
  let boi ← getKey vc "blockOfImages"
  let rep ← getKey boi "representation"
  if isStr rep "h264" then do
    checkGst ctx
    let bref ← getKey boi "blockOfImagesRef"
    let bchunk ← chunkLookup ctx.chunks bref
    let images_data := ctx.split bchunk.data
    let marr ← getKey boi "metadataArray"
    let entries ← asList marr
    mapExcept (parallaxImageOfBlockEntry images_data) entries.enum
  else
    match prior with
    | some p => pure p
    | none => .error (.nameError "parallax_images")

/-- The tail of an edofParallax acceleration entry (process, lines 216-224):
viewpoint extents are twice the maximal coordinates (Python max keeps the
first maximum of the ascending id order; the empty dict would raise
ValueError), assigned to self._parallax_stack on success. -/
def finishParallaxStack (vc : Json) (imgs : List ParallaxImageJ) :
    Except Err ParallaxStackJ :=
  match imgs with
  | [] => .error .valueError
  | x :: xs => do
      let mx := max_first (fun p => p.coord.x) x xs
      let my := max_first (fun p => p.coord.y) x xs
      let dd ← getKey vc "displayParameters" >>= fun a =>
        getKey a "displayDimensions" >>= fun b => getKey b "value"
      let dw ← getKey dd "width"
      let dh ← getKey dd "height"
      pure ⟨imgs, dw, dh, 2 * mx.coord.x, 2 * my.coord.y⟩

/-- Loop-carried state of the acceleration loop: the two stack attributes
of the reader and the function-scoped local parallax_images. -/
structure LoopSt where
  rstack : Option RefocusStackJ
  pstack : Option ParallaxStackJ
  pximgs : Option (List ParallaxImageJ)

/-- One iteration of the acceleration loop (process, lines 130-229):
dispatch on the declared type string; depthMap and unknown types are
no-ops.  Returns the updated state together with the raised error, if any;
assignments made before the raise are retained. -/
def processAccelEntry (ctx : Ctx) (st : LoopSt) (entry : Json) :
    LoopSt × Option Err :=
  match (do
      let t ← getKey entry "type"
      let vc ← getKey entry "vendorContent"
      pure (t, vc) : Except Err (Json × Json)) with
  | .error e => (st, some e)
  | .ok (t, vc) =>
      if isStr t "com.lytro.acceleration.refocusStack" then
        match processRefocusEntry ctx vc with
        | .ok rs => ({ st with rstack := some rs }, none)
        | .error e => (st, some e)
      else if isStr t "com.lytro.acceleration.edofParallax" then
        match buildParallaxImages ctx vc st.pximgs with
        | .error e => (st, some e)
        | .ok imgs =>
            let st2 := { st with pximgs := some imgs }
            match finishParallaxStack vc imgs with
            | .ok ps => ({ st2 with pstack := some ps }, none)
            | .error e => (st2, some e)
      else (st, none)

/-- The acceleration loop: iterate entries until done or an exception. -/
def processLoop (ctx : Ctx) : LoopSt → List Json → LoopSt × Option Err
  | st, [] => (st, none)
  | st, e :: es =>
      match processAccelEntry ctx st e with
      | (st2, none) => processLoop ctx st2 es
      | (st2, some err) => (st2, some err)

/-- Reader state produced by process: the three optional structures. -/
structure ProcSt where
  frame : Option Frame
  rstack : Option RefocusStackJ
  pstack : Option ParallaxStackJ

/-- The raw-frame population (process, lines 119-126): the Frame is set
only when all three chunk references of the first frameArray entry are
present in the chunk table; the membership tests short-circuit, so a later
reference is not even read when an earlier one is absent. -/
def processFrame (chunks : Chunks) (fd : Json) : Except Err (Option Frame) := do
  let r1 ← getKey fd "metadataRef"
  let b1 ← memChunks chunks r1
  if b1 then do
    let r2 ← getKey fd "imageRef"
    let b2 ← memChunks chunks r2
    if b2 then do
      let r3 ← getKey fd "privateMetadataRef"
      let b3 ← memChunks chunks r3
      if b3 then do
        let c1 ← chunkLookup chunks r1
        let c2 ← chunkLookup chunks r2
        let c3 ← chunkLookup chunks r3
        pure (some ⟨c1, c2, c3⟩)
      else pure none
    else pure none
  else pure none

/-- The body of process inside its try block (lines 114-229): resulting
state and raised exception, with mutations before the raise retained. -/
def process_raw (ctx : Ctx) (meta : Json) : ProcSt × Option Err :=
  match (do
      let pd ← getKey meta "picture"
      let fa ← getKey pd "frameArray"
      let e0 ← getIndex fa 0
      let fd ← getKey e0 "frame"
      let fr ← processFrame ctx.chunks fd
      pure (pd, fr) : Except Err (Json × Option Frame)) with
  | .error e => (⟨none, none, none⟩, some e)
  | .ok (pd, fr) =>
      match getKey pd "accelerationArray" with
      | .error e => (⟨fr, none, none⟩, some e)
      | .ok aa =>
          if truthy aa then
            match asList aa with
            | .error e => (⟨fr, none, none⟩, some e)
            | .ok entries =>
                let r := processLoop ctx ⟨none, none, none⟩ entries
                (⟨fr, r.1.rstack, r.1.pstack⟩, r.2)
          else (⟨fr, none, none⟩, none)

/-- The except clause of process (lines 231-232): a KeyError, whatever its
message, is re-raised as the single coarse library error; any other
exception propagates unchanged. -/
def wrapErr : Err → Err
  | .keyError _ => .lfpError "Not a valid/supported LFP Picture file"
  | e => e

/-- Method process: the try body with its KeyError handler. -/
def process (ctx : Ctx) (meta : Json) : ProcSt × Option Err :=
  ((process_raw ctx meta).1, (process_raw ctx meta).2.map wrapErr)

/-!  The decoded-image cache (get_pil_image).  Decoded PIL handles are
modelled as naturals; composite generation and byte decoding go through
the external imaging capability and are abstracted as parameters, with
the generation parameter applied to a running invocation counter so that
recomputation is observable.  -/

/-- Cache key: an integer image id, or the fixed sentinel key of the
all-focused composite (the underscore in the Python code). -/
inductive PilKey where
  | idKey (n : Nat)
  | sentinel
  deriving DecidableEq, Repr

/-- State touched by get_pil_image: the nested cache dict (group, then
key) and the number of composite generations performed so far. -/
structure PilSt where
  cache : List (String × List (PilKey × Nat))
  gen_count : Nat
  deriving DecidableEq, Repr

/-- The per-group cache dict, if the group was created. -/
def cacheGroup (c : List (String × List (PilKey × Nat))) (g : String) :
    Option (List (PilKey × Nat)) :=
  (c.find? (fun p => p.1 == g)).map (fun p => p.2)

/-- Cached handle under a group and key. -/
def cacheLookup (c : List (String × List (PilKey × Nat))) (g : String)
    (k : PilKey) : Option Nat :=
  (cacheGroup c g).bind (fun m => (m.find? (fun p => p.1 == k)).map (fun p => p.2))

/-- The statement cache[group] = {} guarded by the membership test. -/
def cacheEnsure (c : List (String × List (PilKey × Nat))) (g : String) :
    List (String × List (PilKey × Nat)) :=
  if (cacheGroup c g).isSome then c else c ++ [(g, [])]

/-- The statement cache[group][key] = handle (the group exists). -/
def cacheInsert (c : List (String × List (PilKey × Nat))) (g : String)
    (k : PilKey) (v : Nat) : List (String × List (PilKey × Nat)) :=
  c.map (fun p => if p.1 == g then (p.1, p.2 ++ [(k, v)]) else p)

/-- Attribute access chunk.data on an optional chunk: AttributeError when
the chunk is None. -/
def chunkDataOf (oc : Option Chunk) : Except Err (List Nat) :=
  match oc with
  | some c => .ok c.data
  | none => .error .attributeError

/-- The expression img.data if img.data else img.chunk.data (an empty
buffer is falsy). -/
def imgBytes (data : Option (List Nat)) (chunk : Option Chunk) :
    Except Err (List Nat) :=
  match data with
  | some d => if d.isEmpty then chunkDataOf chunk else .ok d
  | none => chunkDataOf chunk

/-- Python dict lookup images[id] on the dense id-keyed image dict. -/
def pyDictGet {α : Type} (l : List α) (id : Nat) : Except Err α :=
  match l.get? id with
  | some a => .ok a
  | none => .error (.keyError (toString id))

/-- Method get_pil_image: validate the group, create its cache dict on
first use, then serve the requested handle from the cache, materialising
it on a miss; the all-focused composite with no id lives under the fixed
sentinel key and is produced by the generator genRes applied to the
current generation count. -/
def get_pil_image (pilOk : Bool) (genRes : Nat → Except Err Nat)
    (decode : List Nat → Nat) (fp : String)
    (rs : Option RefocusStackV) (ps : Option ParallaxStackV)
    (s : PilSt) (group : String) (image_id : Option Nat) :
    Except Err (Nat × PilSt) := do
  if !pilOk then
    .error (.runtimeError "Cannot find Python Imaging Library (PIL or Pillow)")
  else if !(group == "refocus" || group == "parallax" || group == "all_focused") then
    .error (.keyError ("Unknown PIL cache group: " ++ group))
  else do
    let cache := cacheEnsure s.cache group
    if group == "all_focused" && image_id.isNone then
      match cacheLookup cache group .sentinel with
      | some h => .ok (h, ⟨cache, s.gen_count⟩)
      | none => do
          let h ← genRes s.gen_count
          .ok (h, ⟨cacheInsert cache group .sentinel h, s.gen_count + 1⟩)
    else
      match image_id with
      | none => .error (.keyError "Invalid image_id: None")
      | some id => do
          let dc ←
            if group == "refocus" then do
              let stk ← get_refocus_stack fp rs
              let i ← pyDictGet stk.refocus_images id
              pure (i.data, i.chunk)
            else if group == "parallax" then do
              let stk ← get_parallax_stack fp ps
              let i ← pyDictGet stk.parallax_images id
              pure (i.data, i.chunk)
            else .error (.keyError ("Invalid image_id: " ++ toString id))
          match cacheLookup cache group (.idKey id) with
          | some h => .ok (h, ⟨cache, s.gen_count⟩)
          | none => do
              let bytes ← imgBytes dc.1 dc.2
              .ok (decode bytes, ⟨cacheInsert cache group (.idKey id) (decode bytes), s.gen_count⟩)

/-!  Auxiliary definitions used by the verification statements, and the
concrete inputs of witnesses and counterexamples.  -/

/-- Dense 0-based ids of an image dict as assigned by enumerate: the image
at position k carries id n + k when counting starts at n. -/
def idsDense (n : Nat) : List RefocusImageV → Bool
  | [] => true
  | x :: xs => (x.id == n) && idsDense (n + 1) xs

/-- The squared Euclidean distance computed inside the scan of
find_closest_parallax_image, from an image to the viewpoint coordinate of
the fractional query position. -/
def sqDist (stk : ParallaxStackV) (x_f y_f : ℚ) (p : ParallaxImageV) : ℚ :=
  (p.coord.x - (x_f - 1/2) * stk.viewpoint_width) ^ 2 +
  (p.coord.y - (y_f - 1/2) * stk.viewpoint_height) ^ 2

/-- A refocus stack with a 1 x 2 depth table (width 1, height 2), as the
construction lays it out: one column of two rows. -/
def stkBad : RefocusStackV :=
  ⟨[⟨0, 0, 1, 1, "jpeg", none, none⟩], ⟨1, 2, "raw", [[0, 1]], ⟨[]⟩⟩, 0, 1, 1⟩

/-- A refocus stack with a square 2 x 2 depth table. -/
def stkSq : RefocusStackV :=
  ⟨[⟨0, 0, 1, 1, "jpeg", none, none⟩], ⟨2, 2, "raw", [[1, 2], [3, 4]], ⟨[]⟩⟩, 0, 1, 1⟩

/-- A refocus stack with a 10 x 10 depth table whose cell at column 0,
row 9 (indeed every column's row 9) holds 1, and three refocus images
with lambdas 0, 2 and 5 under ids 0, 1 and 2, so that the target lambda 1
is equidistant from the images with ids 0 and 1. -/
def stk10 : RefocusStackV :=
  ⟨[⟨0, 0, 1, 1, "jpeg", none, none⟩,
    ⟨1, 2, 1, 1, "jpeg", none, none⟩,
    ⟨2, 5, 1, 1, "jpeg", none, none⟩],
   ⟨10, 10, "raw",
    List.replicate 10 (List.replicate 9 (7 : ℚ) ++ [1]), ⟨[]⟩⟩, 0, 1, 1⟩

/-- A parallax stack with a single image whose coordinate is so large that
its squared distance to any viewpoint in the grid exceeds sys.maxint. -/
def pstkFar : ParallaxStackV :=
  ⟨[⟨0, ⟨2 ^ 35, 0⟩, 1, 1, "jpeg", none, none⟩], 1, 1, 2 ^ 36, 0⟩

/-- The parallax image at coordinate (10, 0). -/
def pimgB : ParallaxImageV := ⟨1, ⟨10, 0⟩, 1, 1, "jpeg", none, none⟩

/-- A parallax stack with images at (-10, 0) and (10, 0); the viewpoint
extents are twice the maximal coordinates, as process computes them. -/
def pstkAB : ParallaxStackV :=
  ⟨[⟨0, ⟨-10, 0⟩, 1, 1, "jpeg", none, none⟩, pimgB], 1, 1, 20, 0⟩

/-- The frame dict of a metadata tree naming the three chunk references. -/
def frameDict (r1 r2 r3 : String) : Json :=
  .obj [("metadataRef", .str r1), ("imageRef", .str r2),
        ("privateMetadataRef", .str r3)]

/-- A picture metadata tree whose first frameArray entry names the three
chunk references, with arbitrary further frameArray entries and an
arbitrary accelerationArray value. -/
def pictureMeta (r1 r2 r3 : String) (rest : List Json) (accelV : Json) : Json :=
  .obj [("picture", .obj [
    ("frameArray", .arr (.obj [("frame", frameDict r1 r2 r3)] :: rest)),
    ("accelerationArray", accelV)])]

/-- A refocusStack acceleration entry with the given vendorContent dict. -/
def refocusEntryOf (vc : List (String × Json)) : Json :=
  .obj [("type", .str "com.lytro.acceleration.refocusStack"),
        ("vendorContent", .obj vc)]

/-- An edofParallax acceleration entry whose blockOfImages declares the
given representation. -/
def parallaxBadEntry (rep : Json) : Json :=
  .obj [("type", .str "com.lytro.acceleration.edofParallax"),
        ("vendorContent", .obj [("blockOfImages",
          .obj [("representation", rep)])])]

/-- A concrete context: three chunks under the references m, i and p, no
GStreamer module, trivial splitter. -/
def ctx0 : Ctx :=
  ⟨[("m", ⟨[1]⟩), ("i", ⟨[2, 3]⟩), ("p", ⟨[4]⟩)], false, fun _ => []⟩

/-- A vendorContent dict with no imageArray and a blockOfImages whose
declared representation is png rather than h264. -/
def vcBadRep : List (String × Json) :=
  [("blockOfImages", .obj [("representation", .str "png")])]

/-- A picture metadata tree with valid frame references followed by a
refocusStack acceleration entry in the unsupported png representation. -/
def meta9 (r1 r2 r3 : String) : Json :=
  pictureMeta r1 r2 r3 [] (.arr [refocusEntryOf vcBadRep])

/-- A picture metadata tree whose only acceleration entry is an
edofParallax whose blockOfImages representation is raw, not h264. -/
def meta10 : Json :=
  pictureMeta "m" "i" "p" [] (.arr [parallaxBadEntry (.str "raw")])

/-- The clamped depth-table read of find_closest_refocus_image_by_lut_idx:
both indices are the floor of the fractional index clamped into the table
bounds, and the read is table[ti][tj] (written totally with default
values; it coincides with the subscripts whenever the clamped indices are
in range of a well-formed table). -/
def lutTarget (stk : RefocusStackV) (ti tj : ℚ) : ℚ :=
  (stk.depth_lut.table.getD
    ((max 0 (min ⌊ti⌋ ((stk.depth_lut.width : ℤ) - 1))).toNat) []).getD
    ((max 0 (min ⌊tj⌋ ((stk.depth_lut.height : ℤ) - 1))).toNat) 0

/-!  Helper lemmas.  -/

theorem mapExcept_ok {α β : Type} (f : α → Except Err β) (g : α → β)
    (l : List α) (h : ∀ a ∈ l, f a = .ok (g a)) :
    mapExcept f l = .ok (l.map g) := by
  induction l with
  | nil => rfl
  | cons x xs ih =>
      simp only [mapExcept]
      rw [h x (List.mem_cons_self x xs),
        ih (fun a ha => h a (List.mem_cons_of_mem x ha))]
      rfl

theorem pySlice_four (a : Nat) (l : List Nat) (hl : a + 4 ≤ l.length) :
    pySlice l a (a + 4) =
      [l.getD a 0, l.getD (a + 1) 0, l.getD (a + 2) 0, l.getD (a + 3) 0] := by
  induction a generalizing l with
  | zero =>
      match l, hl with
      | x0 :: x1 :: x2 :: x3 :: rest, _ => rfl
  | succ a ih =>
      match l, hl with
      | x :: xs, hl =>
          have hx : a + 4 ≤ xs.length := by
            have h := hl
            simp only [List.length_cons] at h
            omega
          have : pySlice (x :: xs) (a + 1) (a + 1 + 4) = pySlice xs a (a + 4) := by
            simp [pySlice, Nat.add_sub_cancel_left]
          rw [this, ih xs hx]
          simp [List.getD_cons_succ]

theorem min_first_spec {α : Type} (f : α → ℚ) (l : List α) : ∀ b : α,
    (min_first f b l = b ∧ ∀ y ∈ l, f b ≤ f y) ∨
    (∃ k, ∃ hk : k < l.length, min_first f b l = l.get ⟨k, hk⟩ ∧
      f (l.get ⟨k, hk⟩) < f b ∧ (∀ y ∈ l, f (l.get ⟨k, hk⟩) ≤ f y) ∧
      ∀ k', ∀ hk' : k' < l.length, k' < k →
        f (l.get ⟨k, hk⟩) < f (l.get ⟨k', hk'⟩)) := by
  induction l with
  | nil => intro b; left; exact ⟨rfl, by simp⟩
  | cons y ys ih =>
      intro b
      by_cases hyb : f y < f b
      · rcases ih y with ⟨heq, hall⟩ | ⟨k, hk, heq, hlt, hall, hfirst⟩
        · right
          refine ⟨0, by simp, ?_, ?_, ?_, ?_⟩
          · simpa [min_first, hyb] using heq
          · simpa using hyb
          · intro z hz
            rcases List.mem_cons.mp hz with rfl | hz
            · simp
            · simpa using hall z hz
          · intro k' hk' hk0; omega
        · right
          refine ⟨k + 1, by simpa using Nat.succ_lt_succ hk, ?_, ?_, ?_, ?_⟩
          · simpa [min_first, hyb] using heq
          · exact lt_trans hlt hyb
          · intro z hz
            rcases List.mem_cons.mp hz with rfl | hz
            · exact le_of_lt hlt
            · exact hall z hz
          · intro k' hk' hk1
            match k', hk' with
            | 0, _ => simpa using hlt
            | k'' + 1, hk' =>
                simpa using
                  hfirst k'' (Nat.lt_of_succ_lt_succ hk') (Nat.lt_of_succ_lt_succ hk1)
      · push_neg at hyb
        rcases ih b with ⟨heq, hall⟩ | ⟨k, hk, heq, hlt, hall, hfirst⟩
        · left
          constructor
          · simpa [min_first, not_lt.mpr hyb] using heq
          · intro z hz
            rcases List.mem_cons.mp hz with rfl | hz
            · exact hyb
            · exact hall z hz
        · right
          refine ⟨k + 1, by simpa using Nat.succ_lt_succ hk, ?_, ?_, ?_, ?_⟩
          · simpa [min_first, not_lt.mpr hyb] using heq
          · exact hlt
          · intro z hz
            rcases List.mem_cons.mp hz with rfl | hz
            · exact le_of_lt (lt_of_lt_of_le hlt hyb)
            · exact hall z hz
          · intro k' hk' hk1
            match k', hk' with
            | 0, _ => simpa using lt_of_lt_of_le hlt hyb
            | k'' + 1, hk' =>
                simpa using
                  hfirst k'' (Nat.lt_of_succ_lt_succ hk') (Nat.lt_of_succ_lt_succ hk1)

theorem parallax_scan_spec (d : ParallaxImageV → ℚ) (l : List ParallaxImageV) :
    ∀ (o : Option ParallaxImageV) (m : ℚ),
    (parallax_scan d (o, m) l = (o, m) ∧ ∀ y ∈ l, m ≤ d y) ∨
    (∃ k, ∃ hk : k < l.length,
      parallax_scan d (o, m) l = (some (l.get ⟨k, hk⟩), d (l.get ⟨k, hk⟩)) ∧
      d (l.get ⟨k, hk⟩) < m ∧ (∀ y ∈ l, d (l.get ⟨k, hk⟩) ≤ d y) ∧
      ∀ k', ∀ hk' : k' < l.length, k' < k →
        d (l.get ⟨k, hk⟩) < d (l.get ⟨k', hk'⟩)) := by
  induction l with
  | nil => intro o m; left; exact ⟨rfl, by simp⟩
  | cons y ys ih =>
      intro o m
      by_cases hym : d y < m
      · rcases ih (some y) (d y) with ⟨heq, hall⟩ | ⟨k, hk, heq, hlt, hall, hfirst⟩
        · right
          refine ⟨0, by simp, ?_, ?_, ?_, ?_⟩
          · simpa [parallax_scan, hym] using heq
          · simpa using hym
          · intro z hz
            rcases List.mem_cons.mp hz with rfl | hz
            · simp
            · simpa using hall z hz
          · intro k' hk' hk0; omega
        · right
          refine ⟨k + 1, by simpa using Nat.succ_lt_succ hk, ?_, ?_, ?_, ?_⟩
          · simpa [parallax_scan, hym] using heq
          · exact lt_trans hlt hym
          · intro z hz
            rcases List.mem_cons.mp hz with rfl | hz
            · exact le_of_lt hlt
            · exact hall z hz
          · intro k' hk' hk1
            match k', hk' with
            | 0, _ => simpa using hlt
            | k'' + 1, hk' =>
                simpa using
                  hfirst k'' (Nat.lt_of_succ_lt_succ hk') (Nat.lt_of_succ_lt_succ hk1)
      · push_neg at hym
        rcases ih o m with ⟨heq, hall⟩ | ⟨k, hk, heq, hlt, hall, hfirst⟩
        · left
          constructor
          · simpa [parallax_scan, not_lt.mpr hym] using heq
          · intro z hz
            rcases List.mem_cons.mp hz with rfl | hz
            · exact hym
            · exact hall z hz
        · right
          refine ⟨k + 1, by simpa using Nat.succ_lt_succ hk, ?_, ?_, ?_, ?_⟩
          · simpa [parallax_scan, not_lt.mpr hym] using heq
          · exact hlt
          · intro z hz
            rcases List.mem_cons.mp hz with rfl | hz
            · exact le_of_lt (lt_of_lt_of_le hlt hym)
            · exact hall z hz
          · intro k' hk' hk1
            match k', hk' with
            | 0, _ => simpa using lt_of_lt_of_le hlt hym
            | k'' + 1, hk' =>
                simpa using
                  hfirst k'' (Nat.lt_of_succ_lt_succ hk') (Nat.lt_of_succ_lt_succ hk1)

/-- C1: for a refocus-stack acceleration entry, the depth lookup table
built by process from the raw bytes of its chunk (build_depth_table, the
comprehension of lines 176-179 also invoked by buildDepthLut) has width
columns of height rows each, and the cell table[column][row] holds the
32-bit native-order pattern decoded from the bytes at flat offset
4 * (row * width + column), whenever the chunk provides the declared
width * height cells. -/
theorem depth_lut_built_by_process_layout (data : List Nat) (w h : Nat)
    (hlen : 4 * w * h ≤ data.length) :
    ∃ t, build_depth_table data w h = .ok t ∧
      t.length = w ∧
      (∀ col ∈ t, col.length = h) ∧
      ∀ i j, i < w → j < h →
        (t.getD i []).getD j 0 =
          float32_le (data.getD (4 * (j * w + i)) 0)
            (data.getD (4 * (j * w + i) + 1) 0)
            (data.getD (4 * (j * w + i) + 2) 0)
            (data.getD (4 * (j * w + i) + 3) 0) := by
  have hcell : ∀ i, i < w → ∀ j, j < h →
      unpack_f (pySlice data ((j * w + i) * 4) ((j * w + i + 1) * 4)) =
        .ok (float32_le (data.getD (4 * (j * w + i)) 0)
          (data.getD (4 * (j * w + i) + 1) 0)
          (data.getD (4 * (j * w + i) + 2) 0)
          (data.getD (4 * (j * w + i) + 3) 0)) := by
    intro i hi j hj
    have h1 : j * w + i + 1 ≤ h * w := by
      calc j * w + i + 1 ≤ j * w + w := by omega
      _ = (j + 1) * w := by ring
      _ ≤ h * w := Nat.mul_le_mul_right w hj
    have h2 : (j * w + i) * 4 + 4 ≤ data.length := by
      have h5 : (j * w + i) * 4 + 4 ≤ 4 * w * h := by
        calc (j * w + i) * 4 + 4 = (j * w + i + 1) * 4 := by ring
        _ ≤ (h * w) * 4 := Nat.mul_le_mul_right 4 h1
        _ = 4 * w * h := by ring
      exact le_trans h5 hlen
    have h3 : (j * w + i + 1) * 4 = (j * w + i) * 4 + 4 := by ring
    rw [h3, pySlice_four ((j * w + i) * 4) data h2]
    have h4 : (j * w + i) * 4 = 4 * (j * w + i) := by ring
    rw [h4]
    rfl
  set g : Nat → List Nat := fun i => (List.range h).map (fun j =>
    float32_le (data.getD (4 * (j * w + i)) 0)
      (data.getD (4 * (j * w + i) + 1) 0)
      (data.getD (4 * (j * w + i) + 2) 0)
      (data.getD (4 * (j * w + i) + 3) 0)) with hg
  have houter : build_depth_table data w h = .ok ((List.range w).map g) := by
    apply mapExcept_ok
    intro i hi
    have hiw : i < w := List.mem_range.mp hi
    apply mapExcept_ok
    intro j hj
    exact hcell i hiw j (List.mem_range.mp hj)
  refine ⟨(List.range w).map g, houter, by simp, ?_, ?_⟩
  · intro col hcol
    rcases List.mem_map.mp hcol with ⟨i, _, rfl⟩
    simp [hg]
  · intro i j hi hj
    have hgi : (((List.range w).map g).getD i []) = g i := by
      rw [List.getD_eq_getElem?_getD]
      simp [hi]
    rw [hgi, hg]
    rw [List.getD_eq_getElem?_getD]
    simp [hj]

/-- Witness for C1 on a concrete two-cell chunk. -/
theorem depth_lut_built_by_process_layout_witness :
    4 * 2 * 1 ≤ (([1, 0, 0, 0, 2, 0, 0, 0] : List Nat)).length ∧
    ∃ t, build_depth_table [1, 0, 0, 0, 2, 0, 0, 0] 2 1 = .ok t ∧
      t.length = 2 ∧
      (∀ col ∈ t, col.length = 1) ∧
      ∀ i j, i < 2 → j < 1 →
        (t.getD i []).getD j 0 =
          float32_le (([1, 0, 0, 0, 2, 0, 0, 0] : List Nat).getD (4 * (j * 2 + i)) 0)
            (([1, 0, 0, 0, 2, 0, 0, 0] : List Nat).getD (4 * (j * 2 + i) + 1) 0)
            (([1, 0, 0, 0, 2, 0, 0, 0] : List Nat).getD (4 * (j * 2 + i) + 2) 0)
            (([1, 0, 0, 0, 2, 0, 0, 0] : List Nat).getD (4 * (j * 2 + i) + 3) 0) :=
  ⟨by decide, depth_lut_built_by_process_layout [1, 0, 0, 0, 2, 0, 0, 0] 2 1 (by decide)⟩

theorem bind_ok {α β : Type} (a : α) (f : α → Except Err β) :
    (Except.ok a : Except Err α) >>= f = f a := rfl

theorem pure_ok {α : Type} (a : α) : (pure a : Except Err α) = .ok a := rfl

theorem map_ok {α β : Type} (g : α → β) (a : α) :
    (g <$> (Except.ok a : Except Err α)) = .ok (g a) := rfl

theorem map_err {α β : Type} (g : α → β) (e : Err) :
    (g <$> (Except.error e : Except Err α)) = .error e := rfl

theorem pyIndex_ok {α : Type} (l : List α) (i : Nat) (d : α)
    (h : i < l.length) : pyIndex l i = .ok (l.getD i d) := by
  simp [pyIndex, List.get?_eq_getElem?, List.getElem?_eq_getElem h,
    List.getD_eq_getElem?_getD]

theorem getD_mem {α : Type} (l : List α) (i : Nat) (d : α)
    (h : i < l.length) : l.getD i d ∈ l := by
  rw [List.getD_eq_getElem?_getD, List.getElem?_eq_getElem h]
  exact List.getElem_mem h

theorem idsDense_get : ∀ (l : List RefocusImageV) (n : Nat),
    idsDense n l = true →
    ∀ k, ∀ hk : k < l.length, (l.get ⟨k, hk⟩).id = n + k := by
  intro l
  induction l with
  | nil => intro n _ k hk; simp at hk
  | cons x xs ih =>
      intro n hn k hk
      rw [idsDense, Bool.and_eq_true, beq_iff_eq] at hn
      match k with
      | 0 => simpa using hn.1
      | k + 1 =>
          have h2 := ih (n + 1) hn.2 k (Nat.lt_of_succ_lt_succ hk)
          simp only [List.get_cons_succ]
          omega

theorem clamp_lt (t : ℚ) (n : Nat) (hn : 0 < n) :
    (max 0 (min ⌊t⌋ ((n : ℤ) - 1))).toNat < n := by
  have h1 : min ⌊t⌋ ((n : ℤ) - 1) ≤ (n : ℤ) - 1 := min_le_right _ _
  have h2 : (0 : ℤ) ≤ (n : ℤ) - 1 := by
    have h3 : (1 : ℤ) ≤ (n : ℤ) := by exact_mod_cast hn
    omega
  have h4 : max 0 (min ⌊t⌋ ((n : ℤ) - 1)) ≤ (n : ℤ) - 1 := max_le h2 h1
  omega

/-- C2 counterexample: on a populated refocus stack whose depth table is 1
wide and 2 high (one column of two rows, as the construction lays it out),
get_depth_lut_txt produces no lines at all: the rendering loop indexes the
list of width columns with the row index j, so reading table[1] raises
IndexError.  This refutes the claim for stacks whose table is not
square. -/
theorem get_depth_lut_txt_crashes_when_width_ne_height :
    get_depth_lut_txt (some stkBad) = .error .indexError := by rfl

/-- C2 (amended): for a populated refocus stack whose depth table is square
(width = height) and well-formed (width columns of height rows), the text
rendering is exactly width lines, each terminated by CR-LF, where line i
joins, for j over the height, the value table[j][i] rendered by the %9f
fixed format followed by a space. -/
theorem get_depth_lut_txt_lines_when_square (stk : RefocusStackV)
    (hsq : stk.depth_lut.width = stk.depth_lut.height)
    (hlen : stk.depth_lut.table.length = stk.depth_lut.width)
    (hcols : ∀ col ∈ stk.depth_lut.table, col.length = stk.depth_lut.height) :
    ∃ lines : List String,
      lines.length = stk.depth_lut.width ∧
      lines = (List.range stk.depth_lut.width).map (fun i =>
        String.join ((List.range stk.depth_lut.height).map (fun j =>
          fmt_9f ((stk.depth_lut.table.getD j []).getD i 0) ++ " "))) ∧
      get_depth_lut_txt (some stk) =
        .ok (String.join (lines.map (fun s => s ++ "\r\n"))) := by
  refine ⟨_, by simp, rfl, ?_⟩
  have hcell : ∀ i, i < stk.depth_lut.width → ∀ j, j ∈ List.range stk.depth_lut.height →
      (do
        let col ← pyIndex stk.depth_lut.table j
        let v ← pyIndex col i
        pure (fmt_9f v ++ " ") : Except Err String) =
        .ok (fmt_9f ((stk.depth_lut.table.getD j []).getD i 0) ++ " ") := by
    intro i hi j hj
    have hj' : j < stk.depth_lut.table.length := by
      rw [hlen, hsq]; exact List.mem_range.mp hj
    have hcol : (stk.depth_lut.table.getD j []).length = stk.depth_lut.height :=
      hcols _ (getD_mem _ _ _ hj')
    have hi' : i < (stk.depth_lut.table.getD j []).length := by
      rw [hcol, ← hsq]; exact hi
    rw [pyIndex_ok stk.depth_lut.table j [] hj']
    show (pyIndex (stk.depth_lut.table.getD j []) i).bind _ = _
    rw [pyIndex_ok (stk.depth_lut.table.getD j []) i 0 hi']
    rfl
  have hline : ∀ i, i ∈ List.range stk.depth_lut.width →
      (do
        let s ← lut_line stk.depth_lut.table stk.depth_lut.height i
        pure (s ++ "\r\n") : Except Err String) =
        .ok (String.join ((List.range stk.depth_lut.height).map (fun j =>
          fmt_9f ((stk.depth_lut.table.getD j []).getD i 0) ++ " ")) ++ "\r\n") := by
    intro i hi
    have h1 : lut_line stk.depth_lut.table stk.depth_lut.height i =
        .ok (String.join ((List.range stk.depth_lut.height).map (fun j =>
          fmt_9f ((stk.depth_lut.table.getD j []).getD i 0) ++ " "))) := by
      unfold lut_line
      rw [mapExcept_ok _ (fun j => fmt_9f ((stk.depth_lut.table.getD j []).getD i 0) ++ " ")
        (List.range stk.depth_lut.height) (hcell i (List.mem_range.mp hi))]
      rfl
    show (lut_line stk.depth_lut.table stk.depth_lut.height i).bind _ = _
    rw [h1]
    rfl
  show get_depth_lut_txt (some stk) = _
  unfold get_depth_lut_txt
  show (mapExcept _ (List.range stk.depth_lut.width)).bind _ = _
  rw [mapExcept_ok _ (fun i =>
    String.join ((List.range stk.depth_lut.height).map (fun j =>
      fmt_9f ((stk.depth_lut.table.getD j []).getD i 0) ++ " ")) ++ "\r\n")
    (List.range stk.depth_lut.width) hline]
  simp [List.map_map]
  rfl

/-- Witness for C2 on the concrete square stack stkSq. -/
theorem get_depth_lut_txt_lines_when_square_witness :
    (stkSq.depth_lut.width = stkSq.depth_lut.height ∧
     stkSq.depth_lut.table.length = stkSq.depth_lut.width ∧
     ∀ col ∈ stkSq.depth_lut.table, col.length = stkSq.depth_lut.height) ∧
    (∃ lines : List String,
      lines.length = stkSq.depth_lut.width ∧
      lines = (List.range stkSq.depth_lut.width).map (fun i =>
        String.join ((List.range stkSq.depth_lut.height).map (fun j =>
          fmt_9f ((stkSq.depth_lut.table.getD j []).getD i 0) ++ " "))) ∧
      get_depth_lut_txt (some stkSq) =
        .ok (String.join (lines.map (fun s => s ++ "\r\n")))) :=
  ⟨by decide, get_depth_lut_txt_lines_when_square stkSq (by decide) (by decide)
    (by decide)⟩

/-- C3: on a populated refocus stack with a well-formed, non-degenerate
depth table and dense ascending ids, find_closest_refocus_image_by_lut_idx
clamps the floors of ti and tj into the table bounds, reads the target
lambda as table[ti][tj] (lutTarget), and returns the refocus image whose
lambda is nearest that target in absolute difference, ties broken by the
lowest image id. -/
theorem find_closest_refocus_by_lut_idx_spec (fp : String)
    (stk : RefocusStackV) (ti tj : ℚ)
    (hne : stk.refocus_images ≠ [])
    (hw : 0 < stk.depth_lut.width) (hh : 0 < stk.depth_lut.height)
    (hlen : stk.depth_lut.table.length = stk.depth_lut.width)
    (hcols : ∀ col ∈ stk.depth_lut.table, col.length = stk.depth_lut.height)
    (hids : idsDense 0 stk.refocus_images = true) :
    ∃ img,
      find_closest_refocus_image_by_lut_idx fp (some stk) ti tj = .ok img ∧
      (max 0 (min ⌊ti⌋ ((stk.depth_lut.width : ℤ) - 1))).toNat <
        stk.depth_lut.width ∧
      (max 0 (min ⌊tj⌋ ((stk.depth_lut.height : ℤ) - 1))).toNat <
        stk.depth_lut.height ∧
      img ∈ stk.refocus_images ∧
      (∀ img' ∈ stk.refocus_images,
        |img.lambda_ - lutTarget stk ti tj| ≤
          |img'.lambda_ - lutTarget stk ti tj|) ∧
      (∀ img' ∈ stk.refocus_images,
        |img'.lambda_ - lutTarget stk ti tj| =
          |img.lambda_ - lutTarget stk ti tj| → img.id ≤ img'.id) := by
  obtain ⟨x, xs, himg⟩ : ∃ x xs, stk.refocus_images = x :: xs := by
    cases h : stk.refocus_images with
    | nil => exact absurd h hne
    | cons a l => exact ⟨a, l, rfl⟩
  have hids' : idsDense 0 (x :: xs) = true := himg ▸ hids
  have hiw : (max 0 (min ⌊ti⌋ ((stk.depth_lut.width : ℤ) - 1))).toNat <
      stk.depth_lut.width := clamp_lt ti _ hw
  have hjh : (max 0 (min ⌊tj⌋ ((stk.depth_lut.height : ℤ) - 1))).toNat <
      stk.depth_lut.height := clamp_lt tj _ hh
  have hiw' : (max 0 (min ⌊ti⌋ ((stk.depth_lut.width : ℤ) - 1))).toNat <
      stk.depth_lut.table.length := by rw [hlen]; exact hiw
  have hcol : (stk.depth_lut.table.getD
      ((max 0 (min ⌊ti⌋ ((stk.depth_lut.width : ℤ) - 1))).toNat) []).length =
      stk.depth_lut.height := hcols _ (getD_mem _ _ _ hiw')
  have hjh' : (max 0 (min ⌊tj⌋ ((stk.depth_lut.height : ℤ) - 1))).toNat <
      (stk.depth_lut.table.getD
        ((max 0 (min ⌊ti⌋ ((stk.depth_lut.width : ℤ) - 1))).toNat) []).length := by
    rw [hcol]; exact hjh
  have hstk : get_refocus_stack fp (some stk) = .ok stk := by
    simp [get_refocus_stack, himg]
  have e1 : pyIndex stk.depth_lut.table
      ((max 0 (min ⌊ti⌋ ((stk.depth_lut.width : ℤ) - 1))).toNat) =
      .ok (stk.depth_lut.table.getD
        ((max 0 (min ⌊ti⌋ ((stk.depth_lut.width : ℤ) - 1))).toNat) []) :=
    pyIndex_ok _ _ _ hiw'
  have e2 : pyIndex (stk.depth_lut.table.getD
        ((max 0 (min ⌊ti⌋ ((stk.depth_lut.width : ℤ) - 1))).toNat) [])
      ((max 0 (min ⌊tj⌋ ((stk.depth_lut.height : ℤ) - 1))).toNat) =
      .ok (lutTarget stk ti tj) := by
    unfold lutTarget
    exact pyIndex_ok _ _ _ hjh'
  have hrun : find_closest_refocus_image_by_lut_idx fp (some stk) ti tj =
      .ok (min_first (fun img => |img.lambda_ - lutTarget stk ti tj|) x xs) := by
    simp only [find_closest_refocus_image_by_lut_idx, hstk, bind_ok,
      e1, e2, himg]
  rcases min_first_spec (fun img => |img.lambda_ - lutTarget stk ti tj|) xs x
    with ⟨heq, hall⟩ | ⟨k, hk, heq, hlt2, hall, hfirst⟩
  · refine ⟨x, by rw [hrun, heq], hiw, hjh, by rw [himg]; exact List.mem_cons_self x xs,
      ?_, ?_⟩
    · intro img' himg'
      rw [himg] at himg'
      rcases List.mem_cons.mp himg' with rfl | himg'
      · exact le_refl _
      · exact hall img' himg'
    · intro img' _ _
      have hx0 : x.id = 0 := by
        have := idsDense_get (x :: xs) 0 hids' 0 (by simp)
        simpa using this
      rw [hx0]
      exact Nat.zero_le _
  · refine ⟨xs.get ⟨k, hk⟩, by rw [hrun, heq], hiw, hjh,
      by rw [himg]; exact List.mem_cons_of_mem x (List.get_mem xs k hk), ?_, ?_⟩
    · intro img' himg'
      rw [himg] at himg'
      rcases List.mem_cons.mp himg' with rfl | himg'
      · exact le_of_lt hlt2
      · exact hall img' himg'
    · intro img' himg' heq2
      have hidk : (xs.get ⟨k, hk⟩).id = k + 1 := by
        have h3 := idsDense_get (x :: xs) 0 hids' (k + 1) (Nat.succ_lt_succ hk)
        simpa [Nat.add_comm] using h3
      rw [himg] at himg'
      rcases List.mem_cons.mp himg' with rfl | himg'
      · exact absurd (heq2 ▸ hlt2) (lt_irrefl _)
      · obtain ⟨⟨k', hk'⟩, rfl⟩ := List.mem_iff_get.mp himg'
        by_cases hkk : k' < k
        · exact absurd (heq2 ▸ hfirst k' hk' hkk) (lt_irrefl _)
        · have hidk' : (xs.get ⟨k', hk'⟩).id = k' + 1 := by
            have h4 := idsDense_get (x :: xs) 0 hids' (k' + 1) (Nat.succ_lt_succ hk')
            simpa [Nat.add_comm] using h4
          rw [hidk, hidk']
          omega

/-- Witness for C3 on the concrete stack stk10 with ti = -5 and tj = 1000:
the clamped indices are 0 and 9, the target lambda is 1, and the
conclusion of the specification holds there. -/
theorem find_closest_refocus_by_lut_idx_spec_witness :
    (stk10.refocus_images ≠ [] ∧
     0 < stk10.depth_lut.width ∧ 0 < stk10.depth_lut.height ∧
     stk10.depth_lut.table.length = stk10.depth_lut.width ∧
     (∀ col ∈ stk10.depth_lut.table, col.length = stk10.depth_lut.height) ∧
     idsDense 0 stk10.refocus_images = true) ∧
    (max 0 (min ⌊(-5 : ℚ)⌋ ((stk10.depth_lut.width : ℤ) - 1))).toNat = 0 ∧
    (max 0 (min ⌊(1000 : ℚ)⌋ ((stk10.depth_lut.height : ℤ) - 1))).toNat = 9 ∧
    lutTarget stk10 (-5) 1000 = 1 ∧
    (∃ img,
      find_closest_refocus_image_by_lut_idx "f" (some stk10) (-5) 1000 = .ok img ∧
      (max 0 (min ⌊(-5 : ℚ)⌋ ((stk10.depth_lut.width : ℤ) - 1))).toNat <
        stk10.depth_lut.width ∧
      (max 0 (min ⌊(1000 : ℚ)⌋ ((stk10.depth_lut.height : ℤ) - 1))).toNat <
        stk10.depth_lut.height ∧
      img ∈ stk10.refocus_images ∧
      (∀ img' ∈ stk10.refocus_images,
        |img.lambda_ - lutTarget stk10 (-5) 1000| ≤
          |img'.lambda_ - lutTarget stk10 (-5) 1000|) ∧
      (∀ img' ∈ stk10.refocus_images,
        |img'.lambda_ - lutTarget stk10 (-5) 1000| =
          |img.lambda_ - lutTarget stk10 (-5) 1000| → img.id ≤ img'.id)) :=
  ⟨by decide, by decide, by decide, by decide,
   find_closest_refocus_by_lut_idx_spec "f" stk10 (-5) 1000 (by decide)
     (by decide) (by decide) (by decide) (by decide) (by decide)⟩

/-- C4 counterexample: on a populated parallax stack holding one image at
coordinate (2^35, 0) with the viewpoint extents process would derive,
find_closest_parallax_image at query fraction (0, 1/2) returns no image at
all: the only squared distance is 2^72, which is not below the sys.maxint
sentinel initialising the scan, so no image ever replaces the initial
None.  This refutes the claim that a populated stack always yields a
minimising image. -/
theorem find_closest_parallax_maxint_none :
    pstkFar.parallax_images ≠ [] ∧
    find_closest_parallax_image "f" (some pstkFar) 0 (1/2) = .ok none := by
  constructor
  · decide
  · norm_num [find_closest_parallax_image, get_parallax_stack, parallax_scan,
      pstkFar, maxint, bind_ok]

/-- C4 (amended): on a populated parallax stack, provided at least one
image has squared viewpoint distance below sys.maxint,
find_closest_parallax_image maps the fractions to the viewpoint coordinate
and returns the image minimising the squared Euclidean distance (sqDist),
the first image encountered at the minimum winning. -/
theorem find_closest_parallax_spec (fp : String) (stk : ParallaxStackV)
    (x_f y_f : ℚ) (hne : stk.parallax_images ≠ [])
    (hbeat : ∃ p ∈ stk.parallax_images, sqDist stk x_f y_f p < maxint) :
    ∃ img,
      find_closest_parallax_image fp (some stk) x_f y_f = .ok (some img) ∧
      ∃ k, ∃ hk : k < stk.parallax_images.length,
        stk.parallax_images.get ⟨k, hk⟩ = img ∧
        (∀ p ∈ stk.parallax_images,
          sqDist stk x_f y_f img ≤ sqDist stk x_f y_f p) ∧
        (∀ k', ∀ hk' : k' < stk.parallax_images.length, k' < k →
          sqDist stk x_f y_f img <
            sqDist stk x_f y_f (stk.parallax_images.get ⟨k', hk'⟩)) := by
  obtain ⟨x, xs, himg⟩ : ∃ x xs, stk.parallax_images = x :: xs := by
    cases h : stk.parallax_images with
    | nil => exact absurd h hne
    | cons a l => exact ⟨a, l, rfl⟩
  have hstk : get_parallax_stack fp (some stk) = .ok stk := by
    simp [get_parallax_stack, himg]
  have hrun : find_closest_parallax_image fp (some stk) x_f y_f =
      .ok (parallax_scan (sqDist stk x_f y_f) (none, maxint)
        stk.parallax_images).1 := by
    simp only [find_closest_parallax_image, hstk, bind_ok]
    rfl
  rcases parallax_scan_spec (sqDist stk x_f y_f) stk.parallax_images none maxint
    with ⟨heq, hall⟩ | ⟨k, hk, heq, hlt, hall, hfirst⟩
  · exfalso
    obtain ⟨p, hp, hplt⟩ := hbeat
    exact absurd hplt (not_lt.mpr (hall p hp))
  · exact ⟨stk.parallax_images.get ⟨k, hk⟩, by rw [hrun, heq], k, hk, rfl,
      hall, hfirst⟩

/-- Witness for C4 on the concrete stack pstkAB (images at (-10, 0) and
(10, 0), viewpoint width 20) at query fraction (1, 1/2): the returned
image is the one at (10, 0). -/
theorem find_closest_parallax_spec_witness :
    (pstkAB.parallax_images ≠ [] ∧
     ∃ p ∈ pstkAB.parallax_images, sqDist pstkAB 1 (1/2) p < maxint) ∧
    find_closest_parallax_image "f" (some pstkAB) 1 (1/2) = .ok (some pimgB) ∧
    (∃ img,
      find_closest_parallax_image "f" (some pstkAB) 1 (1/2) = .ok (some img) ∧
      ∃ k, ∃ hk : k < pstkAB.parallax_images.length,
        pstkAB.parallax_images.get ⟨k, hk⟩ = img ∧
        (∀ p ∈ pstkAB.parallax_images,
          sqDist pstkAB 1 (1/2) img ≤ sqDist pstkAB 1 (1/2) p) ∧
        (∀ k', ∀ hk' : k' < pstkAB.parallax_images.length, k' < k →
          sqDist pstkAB 1 (1/2) img <
            sqDist pstkAB 1 (1/2) (pstkAB.parallax_images.get ⟨k', hk'⟩))) :=
  ⟨⟨by decide, ⟨pimgB, by decide,
      by norm_num [sqDist, pstkAB, pimgB, maxint]⟩⟩,
   by norm_num [find_closest_parallax_image, get_parallax_stack,
      parallax_scan, pstkAB, pimgB, maxint, bind_ok],
   find_closest_parallax_spec "f" pstkAB 1 (1/2) (by decide)
     ⟨pimgB, by decide, by norm_num [sqDist, pstkAB, pimgB, maxint]⟩⟩

theorem bind_err {α β : Type} (e : Err) (f : α → Except Err β) :
    (Except.error e : Except Err α) >>= f = .error e := rfl

theorem processFrame_frameDict (chunks : Chunks) (r1 r2 r3 : String) :
    processFrame chunks (frameDict r1 r2 r3) =
      .ok (match chunkLookupOpt chunks r1, chunkLookupOpt chunks r2,
          chunkLookupOpt chunks r3 with
        | some c1, some c2, some c3 => some ⟨c1, c2, c3⟩
        | _, _, _ => none) := by
  cases hc1 : chunkLookupOpt chunks r1 <;>
    cases hc2 : chunkLookupOpt chunks r2 <;>
    cases hc3 : chunkLookupOpt chunks r3 <;>
    simp [processFrame, frameDict, getKey, objGet, memChunks, chunkLookup,
      hc1, hc2, hc3, bind_ok, pure_ok]

theorem process_raw_pictureMeta (ctx : Ctx) (r1 r2 r3 : String)
    (rest : List Json) (accelV : Json) :
    process_raw ctx (pictureMeta r1 r2 r3 rest accelV) =
      (let fr : Option Frame :=
        match chunkLookupOpt ctx.chunks r1, chunkLookupOpt ctx.chunks r2,
            chunkLookupOpt ctx.chunks r3 with
        | some c1, some c2, some c3 => some ⟨c1, c2, c3⟩
        | _, _, _ => none
       if truthy accelV then
         match asList accelV with
         | .error e => (⟨fr, none, none⟩, some e)
         | .ok entries =>
             let r := processLoop ctx ⟨none, none, none⟩ entries
             (⟨fr, r.1.rstack, r.1.pstack⟩, r.2)
       else (⟨fr, none, none⟩, none)) := by
  simp [process_raw, pictureMeta, getKey, objGet, getIndex,
    bind_ok, pure_ok, map_ok, map_err, processFrame_frameDict]

theorem processLoop_badRep (ctx : Ctx) :
    processLoop ctx ⟨none, none, none⟩ [refocusEntryOf vcBadRep] =
      (⟨none, none, none⟩,
       some (.keyError "Unsupported Processed LFP Picture file")) := by
  simp [processLoop, processAccelEntry, getKey, objGet, isStr,
    processRefocusEntry, buildRefocusImages, keyMem, vcBadRep,
    refocusEntryOf, bind_ok, bind_err]

/-- C5: after process on a metadata tree whose first frameArray entry
names the three chunk references, the Frame is populated with exactly the
three referenced chunks when all three references are in the chunk table
(and get_frame then returns them), and no Frame is populated when any
reference is missing (and get_frame then fails with the missing-data
error carrying the source file path). -/
theorem process_frame_population (ctx : Ctx) (fp r1 r2 r3 : String)
    (rest : List Json) (accelV : Json) :
    (((chunkLookupOpt ctx.chunks r1).isSome ∧
      (chunkLookupOpt ctx.chunks r2).isSome ∧
      (chunkLookupOpt ctx.chunks r3).isSome) →
      ∃ c1 c2 c3,
        chunkLookupOpt ctx.chunks r1 = some c1 ∧
        chunkLookupOpt ctx.chunks r2 = some c2 ∧
        chunkLookupOpt ctx.chunks r3 = some c3 ∧
        (process ctx (pictureMeta r1 r2 r3 rest accelV)).1.frame =
          some ⟨c1, c2, c3⟩ ∧
        get_frame fp (process ctx (pictureMeta r1 r2 r3 rest accelV)).1.frame =
          .ok ⟨c1, c2, c3⟩) ∧
    (¬((chunkLookupOpt ctx.chunks r1).isSome ∧
       (chunkLookupOpt ctx.chunks r2).isSome ∧
       (chunkLookupOpt ctx.chunks r3).isSome) →
      (process ctx (pictureMeta r1 r2 r3 rest accelV)).1.frame = none ∧
      get_frame fp (process ctx (pictureMeta r1 r2 r3 rest accelV)).1.frame =
        .error (.lfpError (fp ++ ": Not a valid/supported Raw LFP Picture file"))) := by
  have hframe : (process ctx (pictureMeta r1 r2 r3 rest accelV)).1.frame =
      (match chunkLookupOpt ctx.chunks r1, chunkLookupOpt ctx.chunks r2,
          chunkLookupOpt ctx.chunks r3 with
        | some c1, some c2, some c3 => some ⟨c1, c2, c3⟩
        | _, _, _ => none) := by
    show (process_raw ctx (pictureMeta r1 r2 r3 rest accelV)).1.frame = _
    rw [process_raw_pictureMeta]
    cases htr : truthy accelV
    · simp
    · cases hal : asList accelV <;> simp
  constructor
  · intro ⟨h1, h2, h3⟩
    obtain ⟨c1, hc1⟩ := Option.isSome_iff_exists.mp h1
    obtain ⟨c2, hc2⟩ := Option.isSome_iff_exists.mp h2
    obtain ⟨c3, hc3⟩ := Option.isSome_iff_exists.mp h3
    have hfr : (process ctx (pictureMeta r1 r2 r3 rest accelV)).1.frame =
        some ⟨c1, c2, c3⟩ := by rw [hframe, hc1, hc2, hc3]
    exact ⟨c1, c2, c3, hc1, hc2, hc3, hfr, by rw [hfr]; rfl⟩
  · intro hmiss
    have hfr : (process ctx (pictureMeta r1 r2 r3 rest accelV)).1.frame = none := by
      rw [hframe]
      cases hc1 : chunkLookupOpt ctx.chunks r1 <;>
        cases hc2 : chunkLookupOpt ctx.chunks r2 <;>
        cases hc3 : chunkLookupOpt ctx.chunks r3 <;>
        first
          | rfl
          | exact absurd ⟨by rw [hc1]; rfl, by rw [hc2]; rfl, by rw [hc3]; rfl⟩ hmiss
    exact ⟨hfr, by rw [hfr]; rfl⟩

/-- Witness for C5 on the concrete context ctx0, exercising the populated
branch with all three references present. -/
theorem process_frame_population_witness :
    ((chunkLookupOpt ctx0.chunks "m").isSome ∧
     (chunkLookupOpt ctx0.chunks "i").isSome ∧
     (chunkLookupOpt ctx0.chunks "p").isSome) ∧
    (∃ c1 c2 c3,
      chunkLookupOpt ctx0.chunks "m" = some c1 ∧
      chunkLookupOpt ctx0.chunks "i" = some c2 ∧
      chunkLookupOpt ctx0.chunks "p" = some c3 ∧
      (process ctx0 (pictureMeta "m" "i" "p" [] (.arr []))).1.frame =
        some ⟨c1, c2, c3⟩ ∧
      get_frame "f" (process ctx0 (pictureMeta "m" "i" "p" [] (.arr []))).1.frame =
        .ok ⟨c1, c2, c3⟩) :=
  ⟨by decide,
   (process_frame_population ctx0 "f" "m" "i" "p" [] (.arr [])).1 (by decide)⟩

/-- C6: a metadata tree whose walk hits a missing key makes process fail
with the single coarse library error: in particular any tree without the
top-level picture key yields exactly the coarse error, and no process
outcome is ever an uncaught KeyError, since the except clause rewraps
every KeyError, whatever its origin. -/
theorem process_missing_key_coarse_error :
    (∀ (ctx : Ctx) (kvs : List (String × Json)),
      kvs.find? (fun p => p.1 == "picture") = none →
      (process ctx (.obj kvs)).2 =
        some (.lfpError "Not a valid/supported LFP Picture file")) ∧
    (∀ (ctx : Ctx) (meta : Json) (m : String),
      (process ctx meta).2 ≠ some (.keyError m)) := by
  constructor
  · intro ctx kvs h
    have hget : getKey (.obj kvs) "picture" = .error (.keyError "picture") := by
      simp [getKey, objGet, h]
    show ((process_raw ctx (.obj kvs)).2.map wrapErr) = _
    simp [process_raw, hget, bind_err, wrapErr]
  · intro ctx meta m
    show ((process_raw ctx meta).2.map wrapErr) ≠ _
    cases he : (process_raw ctx meta).2 with
    | none => simp
    | some e => cases e <;> simp [wrapErr]

/-- Witness for C6 on a concrete tree without the picture key. -/
theorem process_missing_key_coarse_error_witness :
    ([(("x" : String), Json.null)].find? (fun p => p.1 == "picture") = none) ∧
    (process ctx0 (.obj [("x", Json.null)])).2 =
      some (.lfpError "Not a valid/supported LFP Picture file") :=
  ⟨by rfl,
   process_missing_key_coarse_error.1 ctx0 [("x", Json.null)] (by rfl)⟩

/-- C7 counterexample: on a refocusStack acceleration entry whose
blockOfImages representation is png (and no imageArray), the error that
process fails with is the coarse library error whose message is
Not a valid/supported LFP Picture file; it is neither an error carrying
the claimed message Unsupported Processed LFP Picture file nor a KeyError
visible to the caller, refuting the claim about the observable error. -/
theorem unsupported_refocus_rep_observable_error :
    (process ctx0 (meta9 "m" "i" "p")).2 =
      some (.lfpError "Not a valid/supported LFP Picture file") ∧
    (process ctx0 (meta9 "m" "i" "p")).2 ≠
      some (.lfpError "Unsupported Processed LFP Picture file") ∧
    (process ctx0 (meta9 "m" "i" "p")).2 ≠
      some (.keyError "Unsupported Processed LFP Picture file") := by
  refine ⟨?_, ?_, ?_⟩ <;> decide

/-- C7 (amended): on a refocusStack acceleration entry whose vendorContent
has no imageArray and either no blockOfImages or a blockOfImages whose
representation is not h264, the try body of process raises
KeyError with message Unsupported Processed LFP Picture file internally,
and the except clause converts it, so process fails with the coarse
LfpPictureError Not a valid/supported LFP Picture file. -/
theorem unsupported_refocus_rep_internal_keyerror (ctx : Ctx)
    (r1 r2 r3 : String) (rest : List Json) (vc : List (String × Json))
    (hIA : vc.any (fun p => p.1 == "imageArray") = false)
    (hcase : vc.any (fun p => p.1 == "blockOfImages") = false ∨
      ∃ bkvs rep, objGet vc "blockOfImages" = some (.obj bkvs) ∧
        objGet bkvs "representation" = some rep ∧ isStr rep "h264" = false) :
    (process_raw ctx (pictureMeta r1 r2 r3 rest
        (.arr [refocusEntryOf vc]))).2 =
      some (.keyError "Unsupported Processed LFP Picture file") ∧
    (process ctx (pictureMeta r1 r2 r3 rest (.arr [refocusEntryOf vc]))).2 =
      some (.lfpError "Not a valid/supported LFP Picture file") := by
  have hbuild : buildRefocusImages ctx (.obj vc) =
      .error (.keyError "Unsupported Processed LFP Picture file") := by
    rcases hcase with hno | ⟨bkvs, rep, hb, hr, hrep⟩
    · simp [buildRefocusImages, keyMem, hIA, hno, bind_ok]
    · have hany : vc.any (fun p => p.1 == "blockOfImages") = true := by
        unfold objGet at hb
        cases hf : vc.find? (fun q => q.1 == "blockOfImages") with
        | none => rw [hf] at hb; simp at hb
        | some q =>
            have hq := List.find?_some hf
            exact List.any_eq_true.mpr
              ⟨q, List.mem_of_find?_eq_some hf, by simpa using hq⟩
      have hgetB : getKey (.obj vc) "blockOfImages" = .ok (.obj bkvs) := by
        simp [getKey, hb]
      have hgetR : getKey (.obj bkvs) "representation" = .ok rep := by
        simp [getKey, hr]
      simp [buildRefocusImages, keyMem, hIA, hany, hgetB, hgetR, hrep, bind_ok]
  have hloop : processLoop ctx ⟨none, none, none⟩ [refocusEntryOf vc] =
      (⟨none, none, none⟩,
       some (.keyError "Unsupported Processed LFP Picture file")) := by
    simp [processLoop, processAccelEntry, getKey, objGet, isStr,
      refocusEntryOf, processRefocusEntry, hbuild, bind_ok, bind_err]
  have hraw : (process_raw ctx (pictureMeta r1 r2 r3 rest
      (.arr [refocusEntryOf vc]))).2 =
      some (.keyError "Unsupported Processed LFP Picture file") := by
    rw [process_raw_pictureMeta]
    simp [truthy, asList, hloop]
  refine ⟨hraw, ?_⟩
  show ((process_raw ctx _).2.map wrapErr) = _
  rw [hraw]
  rfl

/-- Witness for C7 on the concrete vendorContent vcBadRep. -/
theorem unsupported_refocus_rep_internal_keyerror_witness :
    (vcBadRep.any (fun p => p.1 == "imageArray") = false ∧
     (∃ bkvs rep, objGet vcBadRep "blockOfImages" = some (.obj bkvs) ∧
        objGet bkvs "representation" = some rep ∧ isStr rep "h264" = false)) ∧
    ((process_raw ctx0 (pictureMeta "m" "i" "p" []
        (.arr [refocusEntryOf vcBadRep]))).2 =
      some (.keyError "Unsupported Processed LFP Picture file") ∧
     (process ctx0 (pictureMeta "m" "i" "p" []
        (.arr [refocusEntryOf vcBadRep]))).2 =
      some (.lfpError "Not a valid/supported LFP Picture file")) :=
  ⟨⟨by rfl, ⟨[("representation", .str "png")], .str "png", by rfl,
      by rfl, by rfl⟩⟩,
   unsupported_refocus_rep_internal_keyerror ctx0 "m" "i" "p" [] vcBadRep
     (by rfl)
     (Or.inr ⟨[("representation", .str "png")], .str "png", by rfl,
       by rfl, by rfl⟩)⟩

/-- C9: when process populates the Frame from valid references and then
fails on a later unsupported refocusStack acceleration entry with the
coarse error, the populated Frame is retained and get_frame still
succeeds, returning exactly the referenced chunks. -/
theorem frame_retained_after_unsupported_accel (ctx : Ctx)
    (fp r1 r2 r3 : String) (c1 c2 c3 : Chunk)
    (h1 : chunkLookupOpt ctx.chunks r1 = some c1)
    (h2 : chunkLookupOpt ctx.chunks r2 = some c2)
    (h3 : chunkLookupOpt ctx.chunks r3 = some c3) :
    (process ctx (meta9 r1 r2 r3)).2 =
      some (.lfpError "Not a valid/supported LFP Picture file") ∧
    (process ctx (meta9 r1 r2 r3)).1.frame = some ⟨c1, c2, c3⟩ ∧
    get_frame fp (process ctx (meta9 r1 r2 r3)).1.frame = .ok ⟨c1, c2, c3⟩ := by
  have hraw : process_raw ctx (meta9 r1 r2 r3) =
      (⟨some ⟨c1, c2, c3⟩, none, none⟩,
       some (.keyError "Unsupported Processed LFP Picture file")) := by
    rw [meta9, process_raw_pictureMeta]
    simp [truthy, asList, processLoop_badRep, h1, h2, h3]
  have h2nd : (process ctx (meta9 r1 r2 r3)).2 =
      some (.lfpError "Not a valid/supported LFP Picture file") := by
    show ((process_raw ctx (meta9 r1 r2 r3)).2.map wrapErr) = _
    rw [hraw]
    rfl
  have hfr : (process ctx (meta9 r1 r2 r3)).1.frame = some ⟨c1, c2, c3⟩ := by
    show ((process_raw ctx (meta9 r1 r2 r3)).1.frame) = _
    rw [hraw]
  exact ⟨h2nd, hfr, by rw [hfr]; rfl⟩

/-- Witness for C9 on the concrete context ctx0. -/
theorem frame_retained_after_unsupported_accel_witness :
    (chunkLookupOpt ctx0.chunks "m" = some ⟨[1]⟩ ∧
     chunkLookupOpt ctx0.chunks "i" = some ⟨[2, 3]⟩ ∧
     chunkLookupOpt ctx0.chunks "p" = some ⟨[4]⟩) ∧
    ((process ctx0 (meta9 "m" "i" "p")).2 =
      some (.lfpError "Not a valid/supported LFP Picture file") ∧
     (process ctx0 (meta9 "m" "i" "p")).1.frame =
      some ⟨⟨[1]⟩, ⟨[2, 3]⟩, ⟨[4]⟩⟩ ∧
     get_frame "f" (process ctx0 (meta9 "m" "i" "p")).1.frame =
      .ok ⟨⟨[1]⟩, ⟨[2, 3]⟩, ⟨[4]⟩⟩) :=
  ⟨⟨by decide, by decide, by decide⟩,
   frame_retained_after_unsupported_accel ctx0 "f" "m" "i" "p"
     ⟨[1]⟩ ⟨[2, 3]⟩ ⟨[4]⟩ (by decide) (by decide) (by decide)⟩

/-- C10: on an input whose only acceleration entry is an edofParallax with
a non-h264 blockOfImages representation, process raises the uncaught
NameError for the unbound local parallax_images, which is not the coarse
library error: the single-coarse-error guarantee does not cover this
branch. -/
theorem parallax_non_h264_uncaught_nameerror :
    (process ctx0 meta10).2 = some (.nameError "parallax_images") ∧
    ∀ msg : String, Err.nameError "parallax_images" ≠ Err.lfpError msg := by
  refine ⟨by decide, ?_⟩
  intro msg h
  cases h

/-- C8: from a fresh reader, get_pil_image for the all_focused group with
no image id generates the composite exactly once, stores it under the
fixed sentinel key, and a second identical call returns the identical
cached handle with the state unchanged (in particular the generation
counter stays at one, so nothing is recomputed). -/
theorem pil_all_focused_cached_once (genRes : Nat → Except Err Nat)
    (decode : List Nat → Nat) (fp : String) (stk : RefocusStackV)
    (ps : Option ParallaxStackV) (h0 : Nat) (hgen : genRes 0 = .ok h0) :
    ∃ s1 : PilSt,
      get_pil_image true genRes decode fp (some stk) ps ⟨[], 0⟩
        "all_focused" none = .ok (h0, s1) ∧
      cacheLookup s1.cache "all_focused" .sentinel = some h0 ∧
      s1.gen_count = 1 ∧
      get_pil_image true genRes decode fp (some stk) ps s1
        "all_focused" none = .ok (h0, s1) := by
  refine ⟨⟨[("all_focused", [(.sentinel, h0)])], 1⟩, ?_, ?_, rfl, ?_⟩
  · simp [get_pil_image, cacheEnsure, cacheGroup, cacheLookup, cacheInsert,
      hgen, bind_ok, pure_ok]
  · simp [cacheLookup, cacheGroup]
  · simp [get_pil_image, cacheEnsure, cacheGroup, cacheLookup,
      bind_ok, pure_ok]

/-- Witness for C8 with a concrete generator returning the handle 7. -/
theorem pil_all_focused_cached_once_witness :
    ((fun _ => Except.ok 7 : Nat → Except Err Nat) 0 = .ok 7) ∧
    (∃ s1 : PilSt,
      get_pil_image true (fun _ => .ok 7) (fun _ => 0) "f" (some stkSq) none
        ⟨[], 0⟩ "all_focused" none = .ok (7, s1) ∧
      cacheLookup s1.cache "all_focused" .sentinel = some 7 ∧
      s1.gen_count = 1 ∧
      get_pil_image true (fun _ => .ok 7) (fun _ => 0) "f" (some stkSq) none
        s1 "all_focused" none = .ok (7, s1)) :=
  ⟨rfl, pil_all_focused_cached_once (fun _ => .ok 7) (fun _ => 0) "f" stkSq
    none 7 rfl⟩

end LfpPicture
